import Mathlib

/-!
Verification of the Yeelight device-session manager (`bulbs/bulb.js`).

The development shallowly embeds the `YeeBulb` class: its mutable fields
become a `BulbState` record, JavaScript objects keyed by strings become
association lists, and the asynchronous `_sendCmd` attempts (network I/O)
become an oracle parameter `att` that maps an attempt index, its deadline
and the state before the attempt to the state after the attempt together
with the attempt's outcome.
-/

set_option autoImplicit false

/-- JSON values that travel in command parameters, results and property
pushes (strings such as `"on"`, numbers such as the transition `400`). -/
inductive JSVal
  | str (s : String)
  | num (n : Int)
  | boolean (b : Bool)
deriving DecidableEq

/-- A JavaScript value thrown/rejected inside `sendCmd`: either a plain
string (the socket error code forwarded by `reject(error.code)`) or an
`Error` object carrying a message (`new Error(...)`). -/
inductive JsErr
  | str (code : String)
  | errObj (message : String)
deriving DecidableEq

/-- The `err === 'EHOSTUNREACH'` test at `bulb.js:220`: a strict string
comparison, so only the string error code matches, never an `Error`. -/
def isHostUnreach : JsErr → Bool
  | JsErr.str code => code == "EHOSTUNREACH"
  | JsErr.errObj _ => false

/-- A logical command `{method, params}` (the id is assigned separately,
mirroring `cmd.id = id.next().value` at `bulb.js:207`). -/
structure Cmd where
  method : String
  params : List JSVal
deriving DecidableEq

/-- A TCP socket; only the `destroyed` flag is observable to the session
logic (`this.sock.destroyed`). -/
structure Sock where
  destroyed : Bool
deriving DecidableEq

/-- The mutable fields of a `YeeBulb` session that the verified operations
read or write.  `pendingByKey` is the JS object used as a map from method
name to the last cached command; `powerVal` is the boolean value of the
`power` getter (`!!this._power`). -/
structure BulbState where
  host : String
  port : Nat
  sock : Option Sock
  online : Bool
  pendingByKey : List (String × Cmd)
  reconciling : Bool
  powerVal : Bool
deriving DecidableEq

/-- Reading `obj[k]` on a JS object represented as an association list
(first entry with the key wins, as JS objects have unique keys). -/
def objGet {α : Type} (m : List (String × α)) (k : String) : Option α :=
  match m.find? (fun kv => kv.1 == k) with
  | some kv => some kv.2
  | none => none

/-- Writing `obj[k] = v` on a JS object: overwrite the entry for `k` when
present (keeping its position, as JS objects preserve insertion order for
string keys), otherwise append a new entry. -/
def objSet {α : Type} (m : List (String × α)) (k : String) (v : α) : List (String × α) :=
  if m.any (fun kv => kv.1 == k) then
    m.map (fun kv => if kv.1 == k then (k, v) else kv)
  else m ++ [(k, v)]

/-- `_cachePending` (`bulb.js:314-319`): ignore commands without a (truthy)
method, otherwise store the minimal `{method, params}` shape keyed by the
method name. -/
def cachePending (s : BulbState) (cmd : Cmd) : BulbState :=
  if cmd.method == "" then s
  else { s with pendingByKey := objSet s.pendingByKey cmd.method ⟨cmd.method, cmd.params⟩ }

/-- JavaScript `ToInt32`: wrap an integer into the signed 32-bit range. -/
def toInt32 (n : Int) : Int := (n + 2 ^ 31) % 2 ^ 32 - 2 ^ 31

/-- JavaScript `a << b` on numbers: both operands are converted to 32-bit
integers, the shift count is taken mod 32, and the result wraps back into
the signed 32-bit range.  This is the per-attempt deadline `timeout << i`
computed at `bulb.js:209`. -/
def jsShl (a : Nat) (b : Nat) : Int := toInt32 (toInt32 a * 2 ^ (b % 32))

/-- Outcome of one `_sendCmd` attempt: the awaited promise either resolves
with a result list or rejects with a JS error value. -/
inductive AttemptRes
  | ok (result : List JSVal)
  | err (e : JsErr)
deriving DecidableEq

/-- An attempt outcome that is a failure of the retriable class (not a
success and not `EHOSTUNREACH`). -/
def isFailNonFatal : AttemptRes → Bool
  | AttemptRes.ok _ => false
  | AttemptRes.err e => !(isHostUnreach e)

/-- The list of `(attempt index, deadline)` pairs for `n` consecutive
attempts starting at index `i`, each with deadline `timeout << index`. -/
def deadlines (timeout : Nat) : Nat → Nat → List (Nat × Int)
  | _, 0 => []
  | i, n + 1 => (i, jsShl timeout i) :: deadlines timeout (i + 1) n

/-- An attempt oracle: the behaviour of one `await this._sendCmd(cmd, t)`
(`bulb.js:213`), abstracting the network.  Given the attempt index, its
deadline and the session state before the attempt it yields the state
after the attempt and the attempt's outcome. -/
def AttOracle : Type := Nat → Int → BulbState → BulbState × AttemptRes

/-- The retry loop of `sendCmd` (`bulb.js:208-223`): attempt index `i`,
deadline `timeout << i`; a success returns immediately; an
`EHOSTUNREACH` rejection breaks out of the loop; the last attempt
(`i === retries`, i.e. no fuel left after this attempt) also breaks.
Returns the state at loop exit, the attempts made (index and deadline)
and the successful result, if any.  Called with `fuel = retries + 1`. -/
def sendLoop (att : AttOracle) (timeout : Nat) :
    Nat → Nat → BulbState → BulbState × List (Nat × Int) × Option (List JSVal)
  | _, 0, s => (s, [], none)
  | i, fuel + 1, s =>
    let t := jsShl timeout i
    match att i t s with
    | (s', AttemptRes.ok r) => (s', [(i, t)], some r)
    | (s', AttemptRes.err e) =>
      if isHostUnreach e then (s', [(i, t)], none)
      else if fuel = 0 then (s', [(i, t)], none)
      else
        match sendLoop att timeout (i + 1) fuel s' with
        | (s'', rest, res) => (s'', (i, t) :: rest, res)

/-- Lines `bulb.js:202-206`: a `get_prop` command is a query and is not
cached; every other command is cached by method before transmission. -/
def preCache (s : BulbState) (cmd : Cmd) : BulbState :=
  if cmd.method == "get_prop" then s else cachePending s cmd

/-- `bulb.js:225-229`: `if (this.sock && !this.sock.destroyed) this.sock.destroy()`
(destroy errors swallowed); the socket reference itself is kept. -/
def destroySock : Option Sock → Option Sock
  | some k => some { k with destroyed := true }
  | none => none

/-- The observable outcome of a whole `sendCmd` call: the final session
state, the attempts made, and the settled promise (resolved list or
rejected JS error). -/
structure SendResult where
  state : BulbState
  attempts : List (Nat × Int)
  result : Except JsErr (List JSVal)

/-- `sendCmd` (`bulb.js:193-244`): cache mutating commands, run the retry
loop, and on exhaustion destroy any live socket, go offline, then resolve
mutating commands with `[]` and reject queries with an error whose
message is the command id. -/
def sendCmd (att : AttOracle) (retries timeout : Nat) (s : BulbState) (cmd : Cmd)
    (cmdId : Nat) : SendResult :=
  match sendLoop att timeout 0 (retries + 1) (preCache s cmd) with
  | (s2, atts, some r) => { state := s2, attempts := atts, result := Except.ok r }
  | (s2, atts, none) =>
    let s3 : BulbState := { s2 with sock := destroySock s2.sock, online := false }
    if cmd.method == "get_prop" then
      { state := s3, attempts := atts, result := Except.error (JsErr.errObj (toString cmdId)) }
    else
      { state := s3, attempts := atts, result := Except.ok [] }

/-- The fixed replay priority order of `_flushPending` (`bulb.js:339-347`). -/
def flushOrder : List String :=
  ["set_power", "bg_set_power", "set_ct_abx", "set_hsv", "set_bright",
   "bg_set_hsv", "bg_set_bright"]

/-- The loop body of `_flushPending` (`bulb.js:348-359`): walk the priority
order, re-issue each cached `{method, params}` through `sendCmd` with a
fresh id (`ids k` is the id assigned to the `k`-th replayed command), and
never delete a cache entry.  Accumulates the commands actually issued. -/
def flushStep (att : AttOracle) (retries timeout : Nat) (ids : Nat → Nat) :
    List String → Nat → BulbState → List Cmd → BulbState × List Cmd
  | [], _, s, acc => (s, acc)
  | mth :: rest, k, s, acc =>
    match objGet s.pendingByKey mth with
    | none => flushStep att retries timeout ids rest k s acc
    | some c =>
      let r := sendCmd att retries timeout s ⟨c.method, c.params⟩ (ids k)
      flushStep att retries timeout ids rest (k + 1) r.state (acc ++ [⟨c.method, c.params⟩])

/-- `_flushPending` (`bulb.js:338-360`). -/
def flushPending (att : AttOracle) (retries timeout : Nat) (ids : Nat → Nat)
    (s : BulbState) : BulbState × List Cmd :=
  flushStep att retries timeout ids flushOrder 0 s []

/-- `_onConnected` (`bulb.js:323-336`): no-op while `_reconciling` is set;
otherwise set the flag, run the flush (whose failure is caught and
swallowed), and clear the flag in `finally`.  The flush is an oracle
returning the state it reaches and an optional error; the boolean in the
result records whether a flush was started. -/
def onConnected (flush : BulbState → BulbState × Option JsErr) (s : BulbState) :
    BulbState × Bool :=
  if s.reconciling then (s, false)
  else
    let s2 := (flush { s with reconciling := true }).1
    ({ s2 with reconciling := false }, true)

/-- The `endpoint` getter (`bulb.js:71-73`): the string `host:port`. -/
def endpointStr (s : BulbState) : String := s.host ++ ":" ++ toString s.port

/-- The `endpoint` setter (`bulb.js:94-98`): split on `':'`, take the first
part as the host and `Number(second part)` as the port.  A missing or
non-numeric port (JS `NaN`) is modelled as `0`; the claims only exercise
well-formed `host:port` endpoints. -/
def setEndpoint (s : BulbState) (ep : String) : BulbState :=
  { s with
    host := (ep.splitOn ":").headD ""
    port := (((ep.splitOn ":").drop 1).headD "").toNat?.getD 0 }

/-- `updateEndpoint` (`bulb.js:75-92`): no-op when the endpoint string is
unchanged; otherwise store the new endpoint, destroy a live socket
(ignoring destroy errors) and drop the reference. -/
def updateEndpoint (s : BulbState) (ep : String) : BulbState :=
  if endpointStr s == ep then s
  else
    let s1 := setEndpoint s ep
    match s1.sock with
    | some k => if !k.destroyed then { s1 with sock := none } else s1
    | none => s1

/-- The host/port a call to `connect` (`bulb.js:135-152`) would dial:
`none` when a live (non-destroyed) socket exists (`connect` resolves
immediately), otherwise `net.connect(this.port, this.host)`. -/
def connectTarget (s : BulbState) : Option (Nat × String) :=
  match s.sock with
  | some k => if !k.destroyed then none else some (s.port, s.host)
  | none => some (s.port, s.host)

/-- `updateStateFromProp` (`bulb.js:108-119`): only the `power` property
has a local representation; its setter stores `value === 'on'`. -/
def updateStateFromProp (power : Bool) (prop : String) (value : JSVal) : Bool :=
  if prop != "power" then power
  else value == JSVal.str "on"

/-- The payload of an error response: `{"error": {"code": .., "message": ..}}`. -/
structure ErrPayload where
  code : Int
  message : String
deriving DecidableEq

/-- A parsed inbound JSON message.  Each field is `none` when the key is
absent from the object (the JS `'key' in message` test). -/
structure Message where
  id? : Option Nat
  result? : Option (List JSVal)
  error? : Option ErrPayload
  method? : Option String
  params? : Option (List (String × JSVal))
deriving DecidableEq

/-- What the response handler did to the matched in-flight request. -/
inductive RespAction
  | resolved (reqId : Nat) (result : List JSVal)
  | rejected (reqId : Nat) (msg : String)
  | noAction
deriving DecidableEq

/-- Observable outcome of `responseHandler`: its boolean return (whether it
claimed the message), the in-flight id set afterwards, the timers cleared
(`clearTimeout`), and the settlement performed. -/
structure RespOut where
  claimed : Bool
  cmds : List Nat
  cleared : List Nat
  action : RespAction
deriving DecidableEq

/-- `responseHandler` (`bulb.js:271-302`).  The in-flight map `this.cmds`
is represented by the list of outstanding request ids.  The final `else`
branch of the source evaluates `message.error.message` although `'error'`
is not in the message, so it throws a `TypeError`; that is modelled by
`Except.error` (the timer of the matched request has already been cleared
and the entry is never settled nor removed when this happens). -/
def responseHandler (cmds : List Nat) (m : Message) : Except String RespOut :=
  match m.id? with
  | none => Except.ok ⟨false, cmds, [], RespAction.noAction⟩
  | some reqId =>
    if !(cmds.contains reqId) then Except.ok ⟨true, cmds, [], RespAction.noAction⟩
    else
      match m.result? with
      | some r =>
        Except.ok ⟨true, cmds.filter (fun j => j != reqId), [reqId],
          RespAction.resolved reqId r⟩
      | none =>
        match m.error? with
        | some e =>
          Except.ok ⟨true, cmds.filter (fun j => j != reqId), [reqId],
            RespAction.rejected reqId e.message⟩
        | none => Except.error "TypeError: cannot read message of undefined"

/-- `stateHandler` (`bulb.js:304-312`): claims a message whose `method` is
`'props'` and folds every included property into the mirrored state (JS
`Object.keys` iterates in insertion order).  A `props` message without a
`params` object would make `Object.keys(undefined)` throw, modelled by
`Except.error`.  Returns `(claimed, new mirrored power)`. -/
def stateHandler (power : Bool) (m : Message) : Except String (Bool × Bool) :=
  match m.method? with
  | some mth =>
    if mth == "props" then
      match m.params? with
      | some ps =>
        Except.ok (true, ps.foldl (fun p kv => updateStateFromProp p kv.1 kv.2) power)
      | none => Except.error "TypeError: cannot convert undefined to object"
    else Except.ok (false, power)
  | none => Except.ok (false, power)

/-- Whether the response handler claims a message.  The crashing branch is
reached only after the handler recognized the id (and cleared its timer),
i.e. after it claimed the message, so it counts as claimed. -/
def respClaims (cmds : List Nat) (m : Message) : Bool :=
  match responseHandler cmds m with
  | Except.ok o => o.claimed
  | Except.error _ => true

/-- Whether the state handler claims a message (same convention). -/
def stateClaims (power : Bool) (m : Message) : Bool :=
  match stateHandler power m with
  | Except.ok o => o.1
  | Except.error _ => true

/-- Which handler ends up owning an inbound message. -/
inductive Claimant
  | response
  | statePush
  | nobody
deriving DecidableEq

/-- Modelled from the spec: the `handle` utility (from `utils.js`, which is
not among the sources) offers every parsed inbound message to the response
handler and then to the state handler, stopping at the first one that
claims it (spec section 4.4). -/
def route (cmds : List Nat) (power : Bool) (m : Message) : Except String Claimant :=
  match responseHandler cmds m with
  | Except.error e => Except.error e
  | Except.ok o =>
    if o.claimed then Except.ok Claimant.response
    else
      match stateHandler power m with
      | Except.error e => Except.error e
      | Except.ok (claimed, _) =>
        Except.ok (if claimed then Claimant.statePush else Claimant.nobody)

/-- `setPower` (`bulb.js:121-133`): compare the requested boolean with the
`power` getter; on equality return at once, otherwise send `set_power`
with `[state, 'smooth', transition]` (transition from
`config.transitions.power`, default `400`) and store the new state in the
mirror.  Returns the new state and the command dispatched, if any. -/
def setPower (att : AttOracle) (retries timeout : Nat) (cmdId : Nat)
    (transitions : Option Int) (s : BulbState) (power : Bool) :
    BulbState × Option Cmd :=
  if s.powerVal == power then (s, none)
  else
    let st := if power then "on" else "off"
    let req : Cmd := ⟨"set_power", [JSVal.str st, JSVal.str "smooth",
      JSVal.num (transitions.getD 400)]⟩
    let r := sendCmd att retries timeout s req cmdId
    ({ r.state with powerVal := st == "on" }, some req)

/-- Sample state used to instantiate theorems with hypotheses. -/
def s0 : BulbState :=
  { host := "192.168.1.10", port := 55443, sock := none, online := false,
    pendingByKey := [], reconciling := false, powerVal := false }

/-- The concrete mutating command of the spec scenario. -/
def cmdSetPower : Cmd :=
  ⟨"set_power", [JSVal.str "on", JSVal.str "smooth", JSVal.num 400]⟩

/-- A later command on the same method. -/
def cmdSetPowerOff : Cmd :=
  ⟨"set_power", [JSVal.str "off", JSVal.str "smooth", JSVal.num 400]⟩

/-- The concrete query of the spec scenario. -/
def qPower : Cmd := ⟨"get_prop", [JSVal.str "power"]⟩

/-- An oracle on which every attempt times out (a transient failure). -/
def attErrTimeout : AttOracle := fun _ _ s => (s, AttemptRes.err (JsErr.str "ETIMEDOUT"))

/-- An oracle on which every attempt rejects with `EHOSTUNREACH`. -/
def attHostUnreach : AttOracle :=
  fun _ _ s => (s, AttemptRes.err (JsErr.str "EHOSTUNREACH"))

/-- The sample state with one cached pending command. -/
def sPending : BulbState := { s0 with pendingByKey := [("set_power", cmdSetPower)] }

/-- A flush oracle that fails. -/
def flushFail : BulbState → BulbState × Option JsErr :=
  fun s => (s, some (JsErr.errObj "boom"))

/-- A success response for request id 4. -/
def msgResolved : Message := ⟨some 4, some [JSVal.str "ok"], none, none, none⟩

/-- A message with no id and a method other than `props`. -/
def msgNoClaim : Message := ⟨none, none, none, some "foo", none⟩

/-- A response carrying a matching id but neither `result` nor `error`. -/
def msgBare7 : Message := ⟨some 7, none, none, none, none⟩

lemma objGet_objSet_self {α : Type} (m : List (String × α)) (k : String) (v : α) :
    objGet (objSet m k v) k = some v := by
  unfold objGet objSet
  by_cases hany : m.any (fun kv => kv.1 == k) = true
  · rw [if_pos hany]
    rw [List.find?_map]
    have hfn : ((fun kv : String × α => kv.1 == k) ∘
        fun kv => if kv.1 == k then (k, v) else kv) = fun kv => kv.1 == k := by
      funext kv
      by_cases hkv : kv.1 = k <;> simp [hkv]
    rw [hfn]
    rcases hfind : m.find? (fun kv => kv.1 == k) with _ | kv0
    · obtain ⟨x, hx, hpx⟩ := List.any_eq_true.mp hany
      exact absurd hpx (List.find?_eq_none.mp hfind x hx)
    · have hp := List.find?_some hfind
      have hk0 : kv0.1 = k := by simpa using hp
      simp [hfind, hk0]
  · rw [if_neg hany]
    rw [List.find?_append]
    have hany' : m.any (fun kv : String × α => kv.1 == k) = false := by
      rwa [Bool.not_eq_true] at hany
    have hnone : m.find? (fun kv : String × α => kv.1 == k) = none :=
      List.find?_eq_none.mpr (List.any_eq_false.mp hany')
    rw [hnone, Option.none_or]
    simp [List.find?_cons]

lemma objGet_objSet_ne {α : Type} (m : List (String × α)) (k k' : String) (v : α)
    (h : k' ≠ k) : objGet (objSet m k v) k' = objGet m k' := by
  have hkk : (k == k') = false := by simp [Ne.symm h]
  unfold objGet objSet
  by_cases hany : m.any (fun kv => kv.1 == k) = true
  · rw [if_pos hany]
    rw [List.find?_map]
    have hfn : ((fun kv : String × α => kv.1 == k') ∘
        fun kv => if kv.1 == k then (k, v) else kv) = fun kv => kv.1 == k' := by
      funext kv
      by_cases hkv : kv.1 = k <;> simp [hkv]
    rw [hfn]
    rcases hfind : m.find? (fun kv => kv.1 == k') with _ | kv0
    · simp [hfind]
    · have hp := List.find?_some hfind
      have hk0 : kv0.1 = k' := by simpa using hp
      have hne : ¬ kv0.1 = k := by rw [hk0]; exact h
      simp [hfind, hne]
  · rw [if_neg hany]
    rw [List.find?_append]
    have hone : List.find? (fun kv : String × α => kv.1 == k') [(k, v)] = none := by
      rw [List.find?_cons_of_neg _ (by simp [hkk])]
      rfl
    rw [hone, Option.or_none]

lemma sendLoop_atts (att : AttOracle) (timeout : Nat) :
    ∀ (fuel i : Nat) (s : BulbState),
      ∃ k, k ≤ fuel ∧ (sendLoop att timeout i fuel s).2.1 = deadlines timeout i k := by
  intro fuel
  induction fuel with
  | zero => exact fun i s => ⟨0, Nat.le_refl 0, rfl⟩
  | succ fuel ih =>
    intro i s
    rcases hatt : att i (jsShl timeout i) s with ⟨s', r⟩
    cases r with
    | ok res =>
      exact ⟨1, Nat.succ_le_succ (Nat.zero_le _), by simp [sendLoop, hatt, deadlines]⟩
    | err e =>
      by_cases hhu : isHostUnreach e = true
      · exact ⟨1, Nat.succ_le_succ (Nat.zero_le _), by simp [sendLoop, hatt, hhu, deadlines]⟩
      · by_cases hf : fuel = 0
        · exact ⟨1, Nat.succ_le_succ (Nat.zero_le _),
            by simp [sendLoop, hatt, hhu, hf, deadlines]⟩
        · obtain ⟨k, hk, hrest⟩ := ih (i + 1) s'
          refine ⟨k + 1, Nat.succ_le_succ hk, ?_⟩
          rcases hrec : sendLoop att timeout (i + 1) fuel s' with ⟨s'', rest, res⟩
          rw [hrec] at hrest
          have hrest' : rest = deadlines timeout (i + 1) k := hrest
          simp [sendLoop, hatt, hhu, hf, hrec, deadlines, hrest']

lemma sendLoop_allFail (att : AttOracle) (timeout : Nat)
    (H : ∀ i t s', isFailNonFatal (att i t s').2 = true) :
    ∀ (fuel i : Nat) (s : BulbState),
      (sendLoop att timeout i fuel s).2 = (deadlines timeout i fuel, none) := by
  intro fuel
  induction fuel with
  | zero => exact fun i s => rfl
  | succ fuel ih =>
    intro i s
    rcases hatt : att i (jsShl timeout i) s with ⟨s', r⟩
    have hH := H i (jsShl timeout i) s
    rw [hatt] at hH
    cases r with
    | ok res => simp [isFailNonFatal] at hH
    | err e =>
      have hhu : isHostUnreach e = false := by simpa [isFailNonFatal] using hH
      by_cases hf : fuel = 0
      · subst hf
        simp [sendLoop, hatt, hhu, deadlines]
      · rcases hrec : sendLoop att timeout (i + 1) fuel s' with ⟨s'', rest, res⟩
        have hih := ih (i + 1) s'
        rw [hrec] at hih
        have h1 : rest = deadlines timeout (i + 1) fuel := congrArg Prod.fst hih
        have h2 : res = none := congrArg Prod.snd hih
        simp [sendLoop, hatt, hhu, hf, hrec, deadlines, h1, h2]

lemma sendLoop_pending (att : AttOracle) (timeout : Nat)
    (hpend : ∀ i t s', ((att i t s').1).pendingByKey = s'.pendingByKey) :
    ∀ (fuel i : Nat) (s : BulbState),
      ((sendLoop att timeout i fuel s).1).pendingByKey = s.pendingByKey := by
  intro fuel
  induction fuel with
  | zero => exact fun i s => rfl
  | succ fuel ih =>
    intro i s
    rcases hatt : att i (jsShl timeout i) s with ⟨s', r⟩
    have hkeep : s'.pendingByKey = s.pendingByKey := by
      have := hpend i (jsShl timeout i) s
      rw [hatt] at this
      exact this
    cases r with
    | ok res => simp [sendLoop, hatt, hkeep]
    | err e =>
      by_cases hhu : isHostUnreach e = true
      · simp [sendLoop, hatt, hhu, hkeep]
      · by_cases hf : fuel = 0
        · simp [sendLoop, hatt, hhu, hf, hkeep]
        · rcases hrec : sendLoop att timeout (i + 1) fuel s' with ⟨s'', rest, res⟩
          have hih := ih (i + 1) s'
          rw [hrec] at hih
          have hih' : s''.pendingByKey = s'.pendingByKey := hih
          simp [sendLoop, hatt, hhu, hf, hrec, hih', hkeep]

lemma sendCmd_fail (att : AttOracle) (retries timeout : Nat) (s : BulbState) (cmd : Cmd)
    (cmdId : Nat) (sExit : BulbState) (atts : List (Nat × Int))
    (hL : sendLoop att timeout 0 (retries + 1) (preCache s cmd) = (sExit, atts, none)) :
    sendCmd att retries timeout s cmd cmdId =
      { state := { sExit with sock := destroySock sExit.sock, online := false },
        attempts := atts,
        result := if cmd.method == "get_prop" then
            Except.error (JsErr.errObj (toString cmdId))
          else Except.ok [] } := by
  unfold sendCmd
  rw [hL]
  by_cases hg : cmd.method == "get_prop" <;> simp [hg]

lemma sendCmd_attempts (att : AttOracle) (retries timeout : Nat) (s : BulbState)
    (cmd : Cmd) (cmdId : Nat) :
    (sendCmd att retries timeout s cmd cmdId).attempts =
      (sendLoop att timeout 0 (retries + 1) (preCache s cmd)).2.1 := by
  unfold sendCmd
  rcases hL : sendLoop att timeout 0 (retries + 1) (preCache s cmd) with ⟨s2, atts, res⟩
  cases res with
  | none => by_cases hg : cmd.method == "get_prop" <;> simp [hg]
  | some r => simp

lemma sendCmd_pendingByKey (att : AttOracle) (retries timeout : Nat) (s : BulbState)
    (cmd : Cmd) (cmdId : Nat)
    (hpend : ∀ i t s', ((att i t s').1).pendingByKey = s'.pendingByKey) :
    ((sendCmd att retries timeout s cmd cmdId).state).pendingByKey =
      (preCache s cmd).pendingByKey := by
  have hloop := sendLoop_pending att timeout hpend (retries + 1) 0 (preCache s cmd)
  unfold sendCmd
  rcases hL : sendLoop att timeout 0 (retries + 1) (preCache s cmd) with ⟨s2, atts, res⟩
  rw [hL] at hloop
  have hloop' : s2.pendingByKey = (preCache s cmd).pendingByKey := hloop
  cases res with
  | none => by_cases hg : cmd.method == "get_prop" <;> simp [hg, hloop']
  | some r => simpa using hloop' 

/-- Claim C1: when every retry attempt of `sendCmd` has failed (the loop
result is `none`), the dispatcher destroys any live socket and marks the
session offline; a mutating command (method other than `get_prop`)
resolves with an empty result list and stays in the pending cache, while a
query (`get_prop`) rejects with an error whose message is the command's
assigned id. -/
theorem yee_C1 (att : AttOracle) (retries timeout : Nat) (s : BulbState) (cmd : Cmd)
    (cmdId : Nat) (sExit : BulbState) (atts : List (Nat × Int))
    (hm : cmd.method ≠ "")
    (hpend : ∀ i t s', ((att i t s').1).pendingByKey = s'.pendingByKey)
    (hL : sendLoop att timeout 0 (retries + 1) (preCache s cmd) = (sExit, atts, none)) :
    (sendCmd att retries timeout s cmd cmdId).state.online = false
    ∧ (sendCmd att retries timeout s cmd cmdId).state.sock = destroySock sExit.sock
    ∧ (cmd.method = "get_prop" →
        (sendCmd att retries timeout s cmd cmdId).result =
          Except.error (JsErr.errObj (toString cmdId)))
    ∧ (cmd.method ≠ "get_prop" →
        (sendCmd att retries timeout s cmd cmdId).result = Except.ok []
        ∧ objGet (sendCmd att retries timeout s cmd cmdId).state.pendingByKey cmd.method
            = some cmd) := by
  have hfail := sendCmd_fail att retries timeout s cmd cmdId sExit atts hL
  have hpk := sendCmd_pendingByKey att retries timeout s cmd cmdId hpend
  refine ⟨by rw [hfail], by rw [hfail], ?_, ?_⟩
  · intro hg
    rw [hfail]
    simp [hg]
  · intro hg
    have hg' : (cmd.method == "get_prop") = false := by simp [hg]
    have hm' : (cmd.method == "") = false := by simp [hm]
    constructor
    · rw [hfail]
      simp [hg']
    · have hpre : (preCache s cmd).pendingByKey =
          objSet s.pendingByKey cmd.method ⟨cmd.method, cmd.params⟩ := by
        simp [preCache, cachePending, hg', hm']
      rw [hpk, hpre]
      exact objGet_objSet_self _ _ _

/-- Claim C2: `sendCmd` makes at most `retries + 1` attempts, indexed from
0, and attempt `i` uses the deadline `timeout << i`; with the default
configuration (`retries = 5`, `timeout = 100`) a run on which every
attempt fails with a retriable error makes exactly 6 attempts with
deadlines 100, 200, 400, 800, 1600, 3200 ms. -/
theorem yee_C2 :
    (∀ (att : AttOracle) (retries timeout : Nat) (s : BulbState) (cmd : Cmd) (cmdId : Nat),
      ∃ k, k ≤ retries + 1 ∧
        (sendCmd att retries timeout s cmd cmdId).attempts = deadlines timeout 0 k)
    ∧ (∀ (att : AttOracle) (s : BulbState) (cmd : Cmd) (cmdId : Nat),
        (∀ i t s', isFailNonFatal ((att i t s').2) = true) →
        (sendCmd att 5 100 s cmd cmdId).attempts.map Prod.snd =
          [(100 : Int), 200, 400, 800, 1600, 3200]) := by
  constructor
  · intro att retries timeout s cmd cmdId
    obtain ⟨k, hk, hatts⟩ := sendLoop_atts att timeout (retries + 1) 0 (preCache s cmd)
    refine ⟨k, hk, ?_⟩
    rw [sendCmd_attempts]
    exact hatts
  · intro att s cmd cmdId H
    have h := sendLoop_allFail att 100 H 6 0 (preCache s cmd)
    have hatts : (sendLoop att 100 0 6 (preCache s cmd)).2.1 = deadlines 100 0 6 :=
      congrArg Prod.fst h
    rw [sendCmd_attempts, hatts]
    decide

/-- Claim C3: an attempt that fails with the `EHOSTUNREACH` error code
ends the retry loop immediately, regardless of the remaining budget, and
`sendCmd` then tears the socket down: with such a first attempt the whole
call makes exactly one attempt, the socket is destroyed and the session
goes offline. -/
theorem yee_C3 :
    (∀ (att : AttOracle) (timeout i fuel : Nat) (s s' : BulbState) (e : JsErr),
        att i (jsShl timeout i) s = (s', AttemptRes.err e) →
        isHostUnreach e = true →
        sendLoop att timeout i (fuel + 1) s = (s', [(i, jsShl timeout i)], none))
    ∧ (∀ (att : AttOracle) (retries timeout : Nat) (s : BulbState) (cmd : Cmd)
          (cmdId : Nat) (s' : BulbState) (e : JsErr),
        att 0 (jsShl timeout 0) (preCache s cmd) = (s', AttemptRes.err e) →
        isHostUnreach e = true →
        (sendCmd att retries timeout s cmd cmdId).attempts = [(0, jsShl timeout 0)]
        ∧ (sendCmd att retries timeout s cmd cmdId).state.sock = destroySock s'.sock
        ∧ (sendCmd att retries timeout s cmd cmdId).state.online = false) := by
  have hloop : ∀ (att : AttOracle) (timeout i fuel : Nat) (s s' : BulbState) (e : JsErr),
      att i (jsShl timeout i) s = (s', AttemptRes.err e) → isHostUnreach e = true →
      sendLoop att timeout i (fuel + 1) s = (s', [(i, jsShl timeout i)], none) := by
    intro att timeout i fuel s s' e hatt hhu
    simp [sendLoop, hatt, hhu]
  refine ⟨hloop, ?_⟩
  intro att retries timeout s cmd cmdId s' e hatt hhu
  have hL := hloop att timeout 0 retries (preCache s cmd) s' e hatt hhu
  have hfail := sendCmd_fail att retries timeout s cmd cmdId s' [(0, jsShl timeout 0)] hL
  rw [hfail]
  exact ⟨rfl, rfl, rfl⟩

theorem yee_C1_witness :
    (sendCmd attErrTimeout 1 100 s0 cmdSetPower 7).result = Except.ok []
    ∧ objGet (sendCmd attErrTimeout 1 100 s0 cmdSetPower 7).state.pendingByKey "set_power"
        = some cmdSetPower :=
  (yee_C1 attErrTimeout 1 100 s0 cmdSetPower 7 sPending [(0, 100), (1, 200)]
      (by decide) (fun _ _ _ => rfl) (by decide)).2.2.2 (by decide)

theorem yee_C2_witness :
    (sendCmd attErrTimeout 5 100 s0 cmdSetPower 1).attempts.map Prod.snd =
      [(100 : Int), 200, 400, 800, 1600, 3200] :=
  yee_C2.2 attErrTimeout s0 cmdSetPower 1
    (fun _ _ _ =>
      (by decide : isFailNonFatal (AttemptRes.err (JsErr.str "ETIMEDOUT")) = true))

theorem yee_C3_witness :
    (sendCmd attHostUnreach 5 100 s0 qPower 3).attempts = [(0, jsShl 100 0)]
    ∧ (sendCmd attHostUnreach 5 100 s0 qPower 3).state.sock = destroySock s0.sock
    ∧ (sendCmd attHostUnreach 5 100 s0 qPower 3).state.online = false :=
  yee_C3.2 attHostUnreach 5 100 s0 qPower 3 (preCache s0 qPower)
    (JsErr.str "EHOSTUNREACH") rfl (by decide)

/-- Claim C4: the pending cache holds at most one entry per method, with
last-writer-wins overwrite: after caching any sequence of commands, the
entry for a (truthy) method name is the most recently issued command with
that method, or whatever the cache held before if the sequence contains
none. -/
theorem yee_C4 (s : BulbState) (cmds : List Cmd) (m : String) (hm : m ≠ "") :
    objGet (cmds.foldl cachePending s).pendingByKey m =
      ((cmds.filter (fun c => c.method == m)).getLast?).elim
        (objGet s.pendingByKey m) some := by
  induction cmds using List.reverseRecOn with
  | nil => simp
  | append_singleton cs c ih =>
    rw [List.foldl_append, List.foldl_cons, List.foldl_nil, List.filter_append]
    by_cases hc : (c.method == m) = true
    · have hcm : c.method = m := by simpa using hc
      have hne : (c.method == "") = false := by simp [hcm, hm]
      have hfil : List.filter (fun c => c.method == m) [c] = [c] := by
        simp [List.filter, hc]
      rw [hfil, List.getLast?_concat]
      simp only [cachePending, hne, Bool.false_eq_true, if_false, Option.elim]
      rw [hcm]
      have hceq : ({ method := m, params := c.params } : Cmd) = c := by rw [← hcm]
      rw [hceq]
      exact objGet_objSet_self _ _ _
    · have hcm : ¬ c.method = m := by simpa using hc
      have hfil : List.filter (fun c => c.method == m) [c] = [] := by
        simp [List.filter, hc]
      rw [hfil, List.append_nil]
      by_cases hempty : (c.method == "") = true
      · simp only [cachePending, hempty, if_true]
        exact ih
      · simp only [cachePending, hempty, Bool.false_eq_true, if_false]
        rw [objGet_objSet_ne _ _ _ _ (fun h => hcm h.symm)]
        exact ih

theorem yee_C4_witness :
    objGet (List.foldl cachePending s0 [cmdSetPower, cmdSetPowerOff]).pendingByKey
      "set_power" = some cmdSetPowerOff :=
  yee_C4 s0 [cmdSetPower, cmdSetPowerOff] "set_power" (by decide)

lemma filterMap_congr_on {α β : Type} (f g : α → Option β) :
    ∀ (l : List α), (∀ a ∈ l, f a = g a) → l.filterMap f = l.filterMap g := by
  intro l
  induction l with
  | nil => intro _; rfl
  | cons a t ih =>
    intro h
    rw [List.filterMap_cons, List.filterMap_cons, h a (List.mem_cons_self a t),
      ih (fun x hx => h x (List.mem_cons_of_mem a hx))]

lemma sendCmd_pending_ext (att : AttOracle) (retries timeout : Nat) (s : BulbState)
    (cmd : Cmd) (cmdId : Nat)
    (hpend : ∀ i t s', ((att i t s').1).pendingByKey = s'.pendingByKey)
    (hc : objGet s.pendingByKey cmd.method = some cmd) :
    ∀ key, objGet ((sendCmd att retries timeout s cmd cmdId).state).pendingByKey key =
      objGet s.pendingByKey key := by
  intro key
  rw [sendCmd_pendingByKey att retries timeout s cmd cmdId hpend]
  unfold preCache
  by_cases hg : (cmd.method == "get_prop") = true
  · simp [hg]
  · simp only [hg, Bool.false_eq_true, if_false]
    unfold cachePending
    by_cases he : (cmd.method == "") = true
    · simp [he]
    · simp only [he, Bool.false_eq_true, if_false]
      show objGet (objSet s.pendingByKey cmd.method ⟨cmd.method, cmd.params⟩) key =
        objGet s.pendingByKey key
      by_cases hk : key = cmd.method
      · subst hk
        rw [objGet_objSet_self]
        exact hc.symm
      · exact objGet_objSet_ne _ _ _ _ hk

lemma flushStep_spec (att : AttOracle) (retries timeout : Nat) (ids : Nat → Nat)
    (hpend : ∀ i t s', ((att i t s').1).pendingByKey = s'.pendingByKey) :
    ∀ (ms : List String) (k : Nat) (s : BulbState) (acc : List Cmd),
      (∀ key c, objGet s.pendingByKey key = some c → c.method = key) →
      (∀ key, objGet ((flushStep att retries timeout ids ms k s acc).1).pendingByKey key =
          objGet s.pendingByKey key)
      ∧ (flushStep att retries timeout ids ms k s acc).2 =
          acc ++ ms.filterMap (fun mth => objGet s.pendingByKey mth) := by
  intro ms
  induction ms with
  | nil =>
    intro k s acc hwf
    exact ⟨fun key => rfl, by simp [flushStep]⟩
  | cons mth rest ih =>
    intro k s acc hwf
    rcases hget : objGet s.pendingByKey mth with _ | c
    · have hstep : flushStep att retries timeout ids (mth :: rest) k s acc =
          flushStep att retries timeout ids rest k s acc := by
        simp [flushStep, hget]
      have hih := ih k s acc hwf
      refine ⟨fun key => by rw [hstep]; exact hih.1 key, ?_⟩
      rw [hstep, hih.2, List.filterMap_cons, hget]
    · have hcm : c.method = mth := hwf mth c hget
      have hc' : objGet s.pendingByKey c.method = some c := by rw [hcm]; exact hget
      have hext := sendCmd_pending_ext att retries timeout s ⟨c.method, c.params⟩
        (ids k) hpend hc'
      have hwf' : ∀ key c',
          objGet ((sendCmd att retries timeout s ⟨c.method, c.params⟩
            (ids k)).state).pendingByKey key = some c' → c'.method = key := by
        intro key c' h
        exact hwf key c' ((hext key) ▸ h)
      have hih := ih (k + 1)
        (sendCmd att retries timeout s ⟨c.method, c.params⟩ (ids k)).state
        (acc ++ [⟨c.method, c.params⟩]) hwf'
      have hstep : flushStep att retries timeout ids (mth :: rest) k s acc =
          flushStep att retries timeout ids rest (k + 1)
            (sendCmd att retries timeout s ⟨c.method, c.params⟩ (ids k)).state
            (acc ++ [⟨c.method, c.params⟩]) := by
        simp [flushStep, hget]
      refine ⟨fun key => by rw [hstep, hih.1 key, hext key], ?_⟩
      rw [hstep, hih.2,
        filterMap_congr_on _ _ rest (fun a _ => hext a)]
      have hceta : ({ method := c.method, params := c.params } : Cmd) = c := rfl
      rw [List.filterMap_cons, hget, hceta]
      simp [List.append_assoc]

/-- Claim C5: a flush walks the fixed priority order `set_power`,
`bg_set_power`, `set_ct_abx`, `set_hsv`, `set_bright`, `bg_set_hsv`,
`bg_set_bright`, re-issuing every cached `{method, params}` present in the
pending cache as a fresh mutating command through the dispatcher, in that
order, and the replay removes no cache entry (the cache maps every key to
exactly what it held before). -/
theorem yee_C5 (att : AttOracle) (retries timeout : Nat) (ids : Nat → Nat) (s : BulbState)
    (hpend : ∀ i t s', ((att i t s').1).pendingByKey = s'.pendingByKey)
    (hwf : ∀ key c, objGet s.pendingByKey key = some c → c.method = key) :
    (flushPending att retries timeout ids s).2 =
      flushOrder.filterMap (fun mth => objGet s.pendingByKey mth)
    ∧ ∀ key, objGet ((flushPending att retries timeout ids s).1).pendingByKey key =
        objGet s.pendingByKey key := by
  have h := flushStep_spec att retries timeout ids hpend flushOrder 0 s [] hwf
  exact ⟨by simpa using h.2, h.1⟩

theorem yee_C5_witness :
    (flushPending attErrTimeout 1 100 (fun k => k + 10) sPending).2 = [cmdSetPower]
    ∧ objGet ((flushPending attErrTimeout 1 100 (fun k => k + 10) sPending).1).pendingByKey
        "set_power" = some cmdSetPower := by
  have h := yee_C5 attErrTimeout 1 100 (fun k => k + 10) sPending
    (fun _ _ _ => rfl)
    (by
      intro key c h
      have hpk : sPending.pendingByKey = [("set_power", cmdSetPower)] := rfl
      rw [hpk] at h
      by_cases hk : ("set_power" == key) = true
      · have hkey : "set_power" = key := by simpa using hk
        have hsome : objGet [("set_power", cmdSetPower)] key = some cmdSetPower := by
          simp [objGet, List.find?, hk]
        rw [hsome] at h
        injection h with h
        rw [← h, ← hkey]
        rfl
      · have hnone : objGet [("set_power", cmdSetPower)] key = (none : Option Cmd) := by
          simp [objGet, List.find?, hk]
        rw [hnone] at h
        cases h)
  exact ⟨h.1, h.2 "set_power"⟩

/-- Claim C6: `_onConnected` is a no-op while the `reconciling` flag is
set (no flush is started); otherwise the flush runs on the state with the
flag set, the flag is cleared afterwards whether or not the flush reports
an error, and the call returns normally for every flush behaviour (a
flush failure is swallowed, never propagated). -/
theorem yee_C6 (flush : BulbState → BulbState × Option JsErr) (s : BulbState) :
    (s.reconciling = true → onConnected flush s = (s, false))
    ∧ (s.reconciling = false →
        onConnected flush s =
          ({ (flush { s with reconciling := true }).1 with reconciling := false },
            true)) := by
  constructor
  · intro h
    simp [onConnected, h]
  · intro h
    simp [onConnected, h]

theorem yee_C6_witness : onConnected flushFail s0 = (s0, true) :=
  (yee_C6 flushFail s0).2 rfl

/-- Claim C9: `updateEndpoint` with the current endpoint changes nothing;
with a different endpoint it replaces host and port with the parsed new
values, leaves no live socket (any socket still referenced is destroyed),
keeps the pending cache and the mirrored power untouched, and the next
`connect` dials exactly the new host and port. -/
theorem yee_C9 (s : BulbState) (ep : String) :
    (endpointStr s = ep → updateEndpoint s ep = s)
    ∧ (endpointStr s ≠ ep →
        (updateEndpoint s ep).host = (ep.splitOn ":").headD ""
        ∧ (updateEndpoint s ep).port = (((ep.splitOn ":").drop 1).headD "").toNat?.getD 0
        ∧ (∀ k, (updateEndpoint s ep).sock = some k → k.destroyed = true)
        ∧ (updateEndpoint s ep).pendingByKey = s.pendingByKey
        ∧ (updateEndpoint s ep).powerVal = s.powerVal
        ∧ (updateEndpoint s ep).online = s.online
        ∧ connectTarget (updateEndpoint s ep) =
            some ((((ep.splitOn ":").drop 1).headD "").toNat?.getD 0,
              (ep.splitOn ":").headD "")) := by
  constructor
  · intro h
    simp [updateEndpoint, h]
  · intro h
    have h' : (endpointStr s == ep) = false := by simp [h]
    have hcore : updateEndpoint s ep =
        { s with
          host := (ep.splitOn ":").headD "",
          port := (((ep.splitOn ":").drop 1).headD "").toNat?.getD 0,
          sock := match s.sock with
            | some k => if !k.destroyed then none else some k
            | none => none } := by
      unfold updateEndpoint setEndpoint
      rw [if_neg (by simp [h'] : ¬ (endpointStr s == ep) = true)]
      rcases hs : s.sock with _ | k
      · simp [hs]
      · by_cases hd : k.destroyed <;> simp [hs, hd]
    refine ⟨by rw [hcore], by rw [hcore], ?_, by rw [hcore], by rw [hcore],
      by rw [hcore], ?_⟩
    · intro k hk
      rw [hcore] at hk
      rcases hs : s.sock with _ | k0
      · rw [hs] at hk
        cases hk
      · rw [hs] at hk
        have hk2 : (if (!k0.destroyed) = true then (none : Option Sock) else some k0) =
            some k := hk
        by_cases hd : k0.destroyed
        · rw [if_neg (by simp [hd])] at hk2
          injection hk2 with hk2
          rw [← hk2]
          exact hd
        · rw [if_pos (by simp [hd])] at hk2
          cases hk2
    · rw [hcore]
      unfold connectTarget
      rcases hs : s.sock with _ | k0
      · simp [hs]
      · by_cases hd : k0.destroyed <;> simp [hs, hd]

theorem yee_C9_witness :
    (updateEndpoint s0 "10.0.0.5:1234").host = ("10.0.0.5:1234".splitOn ":").headD ""
    ∧ (updateEndpoint s0 "10.0.0.5:1234").port =
        ((("10.0.0.5:1234".splitOn ":").drop 1).headD "").toNat?.getD 0
    ∧ (∀ k, (updateEndpoint s0 "10.0.0.5:1234").sock = some k → k.destroyed = true)
    ∧ (updateEndpoint s0 "10.0.0.5:1234").pendingByKey = s0.pendingByKey
    ∧ (updateEndpoint s0 "10.0.0.5:1234").powerVal = s0.powerVal
    ∧ (updateEndpoint s0 "10.0.0.5:1234").online = s0.online
    ∧ connectTarget (updateEndpoint s0 "10.0.0.5:1234") =
        some (((("10.0.0.5:1234".splitOn ":").drop 1).headD "").toNat?.getD 0,
          ("10.0.0.5:1234".splitOn ":").headD "") :=
  (yee_C9 s0 "10.0.0.5:1234").2 (by decide)

/-- Claim C10: `setPower` is a complete no-op (identical state, no command
dispatched) when the requested boolean equals the mirrored power value,
and dispatches `set_power` with parameters `[state, 'smooth', transition]`
(default transition 400) exactly when the requested value differs from the
mirror. -/
theorem yee_C10 (att : AttOracle) (retries timeout cmdId : Nat) (transitions : Option Int)
    (s : BulbState) (power : Bool) :
    (s.powerVal = power → setPower att retries timeout cmdId transitions s power = (s, none))
    ∧ (s.powerVal ≠ power →
        (setPower att retries timeout cmdId transitions s power).2 =
          some ⟨"set_power", [JSVal.str (if power then "on" else "off"),
            JSVal.str "smooth", JSVal.num (transitions.getD 400)]⟩) := by
  constructor
  · intro h
    simp [setPower, h]
  · intro h
    have h' : (s.powerVal == power) = false := by simp [h]
    simp [setPower, h']

theorem yee_C10_witness :
    setPower attErrTimeout 1 100 9 none s0 false = (s0, none)
    ∧ (setPower attErrTimeout 1 100 9 none s0 true).2 =
        some ⟨"set_power", [JSVal.str "on", JSVal.str "smooth", JSVal.num 400]⟩ :=
  ⟨(yee_C10 attErrTimeout 1 100 9 none s0 false).1 rfl,
   (yee_C10 attErrTimeout 1 100 9 none s0 true).2 (by decide)⟩

/-- Claim C7 counterexample: the message `{"method": "foo"}` (no id, not a
`props` notification) is claimed by neither the response handler nor the
state handler, and the router assigns it to nobody — refuting the claim
that exactly one of the two handlers claims every parsed inbound
message. -/
theorem yee_C7_cex :
    respClaims [] msgNoClaim = false
    ∧ stateClaims false msgNoClaim = false
    ∧ route [] false msgNoClaim = Except.ok Claimant.nobody :=
  ⟨rfl, rfl, rfl⟩

/-- Claim C7 (amended): at most one of the two handlers claims an inbound
message — the response handler claims exactly the messages carrying an id
(resolving or rejecting a matching in-flight request, removing it and
clearing its timer, and discarding an unrecognized id without error), the
state handler claims an id-free `props` notification and applies each
included property to the mirrored set (ignoring properties with no local
representation), and a message with neither an id nor a `props` method is
claimed by neither handler. -/
theorem yee_C7_amended (cmds : List Nat) (power : Bool) (m : Message) :
    respClaims cmds m = m.id?.isSome
    ∧ (m.id? = none → m.method? ≠ some "props" →
        route cmds power m = Except.ok Claimant.nobody)
    ∧ (∀ ps, m.id? = none → m.method? = some "props" → m.params? = some ps →
        route cmds power m = Except.ok Claimant.statePush
        ∧ stateHandler power m =
            Except.ok (true, ps.foldl (fun p kv => updateStateFromProp p kv.1 kv.2) power))
    ∧ (∀ reqId, m.id? = some reqId → cmds.contains reqId = false →
        responseHandler cmds m = Except.ok ⟨true, cmds, [], RespAction.noAction⟩)
    ∧ (∀ reqId r, m.id? = some reqId → cmds.contains reqId = true → m.result? = some r →
        responseHandler cmds m =
          Except.ok ⟨true, cmds.filter (fun j => j != reqId), [reqId],
            RespAction.resolved reqId r⟩)
    ∧ (∀ reqId e, m.id? = some reqId → cmds.contains reqId = true → m.result? = none →
        m.error? = some e →
        responseHandler cmds m =
          Except.ok ⟨true, cmds.filter (fun j => j != reqId), [reqId],
            RespAction.rejected reqId e.message⟩)
    ∧ (∀ p v, p ≠ "power" → updateStateFromProp power p v = power) := by
  refine ⟨?_, ?_, ?_, ?_, ?_, ?_, ?_⟩
  · rcases hid : m.id? with _ | reqId
    · simp [respClaims, responseHandler, hid]
    · by_cases hc : cmds.contains reqId = true
      · have hmem : reqId ∈ cmds := by simpa using hc
        rcases hres : m.result? with _ | r
        · rcases herr : m.error? with _ | e
          · simp [respClaims, responseHandler, hid, hmem, hres, herr]
          · simp [respClaims, responseHandler, hid, hmem, hres, herr]
        · simp [respClaims, responseHandler, hid, hmem, hres]
      · have hmem : reqId ∉ cmds := by simpa using hc
        simp [respClaims, responseHandler, hid, hmem]
  · intro hid hmeth
    rcases hm2 : m.method? with _ | mth
    · simp [route, responseHandler, hid, stateHandler, hm2]
    · have hne : (mth == "props") = false := by
        have : ¬ mth = "props" := fun hh => hmeth (by rw [hm2, hh])
        simp [this]
      simp [route, responseHandler, hid, stateHandler, hm2, hne]
  · intro ps hid hmeth hps
    constructor
    · simp [route, responseHandler, hid, stateHandler, hmeth, hps]
    · simp [stateHandler, hmeth, hps]
  · intro reqId hid hc
    have hmem : reqId ∉ cmds := by simpa using hc
    simp [responseHandler, hid, hmem]
  · intro reqId r hid hc hres
    have hmem : reqId ∈ cmds := by simpa using hc
    simp [responseHandler, hid, hmem, hres]
  · intro reqId e hid hc hres herr
    have hmem : reqId ∈ cmds := by simpa using hc
    simp [responseHandler, hid, hmem, hres, herr]
  · intro p v hp
    simp [updateStateFromProp, hp]

theorem yee_C7_witness :
    responseHandler [4] msgResolved =
      Except.ok ⟨true, [], [4], RespAction.resolved 4 [JSVal.str "ok"]⟩ :=
  (yee_C7_amended [4] false msgResolved).2.2.2.2.1 4 [JSVal.str "ok"] rfl rfl rfl

/-- Claim C8: routing a response whose id matches an in-flight request but
which carries neither a `result` nor an `error` field does throw — the
source's final `else` branch evaluates `message.error.message` although
`'error'` is not in the message, so the handler raises a `TypeError`
instead of dropping the message silently (the claim describes the spec's
intent; the code contradicts it). -/
theorem yee_C8_bug :
    responseHandler [7] msgBare7 =
      Except.error "TypeError: cannot read message of undefined" :=
  rfl
